import Mathlib

/-!
Shallow embedding of a small class-based interpreter
(`lang_types.py`, `interpreter.py`) with view-class dispatch.

The Python program keeps mutable heap objects (`Instance`) referenced from
variable bindings; we model the heap explicitly as a store addressed by `Nat`
(Python object identity), so aliasing and independent copies are observable.
Class definitions are resolved trees (the loader links `base` references and
rejects duplicate class names, so identity of `ClassDef` objects coincides
with name equality along any chain drawn from one class table).
-/

namespace RAFOO

/-- `is_int` from `lang_types.py`: `re.match(r"-?\d+$", tok)` — an optional
leading minus sign followed by one or more digits, spanning the whole token. -/
def is_int (tok : String) : Bool :=
  let cs := tok.data
  let ds := match cs with
    | '-' :: rest => rest
    | _ => cs
  !ds.isEmpty && ds.all Char.isDigit

/-- Decimal value of a digit list (semantics of Python `int` on a digit string). -/
def digitsToNat (cs : List Char) : Nat :=
  cs.foldl (fun acc c => acc * 10 + (c.toNat - '0'.toNat)) 0

/-- Python `int(tok)` on a token that passed `is_int`. -/
def str_to_int (tok : String) : Int :=
  match tok.data with
  | '-' :: rest => - (Int.ofNat (digitsToNat rest))
  | cs => Int.ofNat (digitsToNat cs)

/-- `ClassDef` from `lang_types.py` after base resolution: the `base` field is
the resolved reference (`None` or another class), so the base chain is a tree. -/
inductive ClassDef : Type where
  | mk (name : String) (fields : List String)
       (methods : List (String × List String)) (base : Option ClassDef)
deriving Repr

/-- Structural decidable equality for `ClassDef` (the automatic derivation
does not handle the `Option`-nested recursion). -/
def ClassDef.decEq : (a b : ClassDef) → Decidable (a = b)
  | .mk n1 f1 m1 none, .mk n2 f2 m2 none =>
    if h : n1 = n2 ∧ f1 = f2 ∧ m1 = m2 then
      isTrue (by obtain ⟨h1, h2, h3⟩ := h; subst h1; subst h2; subst h3; rfl)
    else
      isFalse (by intro hc; injection hc with e1 e2 e3 _; exact h ⟨e1, e2, e3⟩)
  | .mk _ _ _ none, .mk _ _ _ (some _) =>
    isFalse (by intro hc; injection hc with _ _ _ e4; exact Option.noConfusion e4)
  | .mk _ _ _ (some _), .mk _ _ _ none =>
    isFalse (by intro hc; injection hc with _ _ _ e4; exact Option.noConfusion e4)
  | .mk n1 f1 m1 (some x), .mk n2 f2 m2 (some y) =>
    if h : n1 = n2 ∧ f1 = f2 ∧ m1 = m2 then
      match ClassDef.decEq x y with
      | isTrue hb => isTrue (by
          obtain ⟨h1, h2, h3⟩ := h
          subst h1; subst h2; subst h3; subst hb; rfl)
      | isFalse hb => isFalse (by
          intro hc; injection hc with _ _ _ e4
          exact hb (Option.some.inj e4))
    else
      isFalse (by intro hc; injection hc with e1 e2 e3 _; exact h ⟨e1, e2, e3⟩)

instance : DecidableEq ClassDef := ClassDef.decEq

def ClassDef.name : ClassDef → String
  | .mk n _ _ _ => n

def ClassDef.fields : ClassDef → List String
  | .mk _ f _ _ => f

def ClassDef.methods : ClassDef → List (String × List String)
  | .mk _ _ m _ => m

def ClassDef.base : ClassDef → Option ClassDef
  | .mk _ _ _ b => b

/-- `ClassDef.all_fields`: inherited fields (base first) then this class's own. -/
def ClassDef.all_fields : ClassDef → List String
  | .mk _ fields _ none => fields
  | .mk _ fields _ (some b) => b.all_fields ++ fields

/-- `ClassDef.is_subclass_of`: walk the base chain looking for `other`.
Python compares with `is` (object identity); with unique class names in a
resolved table this is name equality. -/
def ClassDef.is_subclass_of : ClassDef → ClassDef → Bool
  | .mk n _ _ b, other =>
    if n == other.name then true
    else match b with
      | none => false
      | some bc => bc.is_subclass_of other

/-- `ClassDef.lookup_method`: first class in the chain (self, then bases)
whose method table declares the name. -/
def ClassDef.lookup_method : ClassDef → String → Option (List String)
  | .mk _ _ methods b, m =>
    match methods.lookup m with
    | some toks => some toks
    | none => match b with
      | none => none
      | some bc => bc.lookup_method m

/-- The chain self, base, base-of-base, … (leaf to root). -/
def ClassDef.chain : ClassDef → List ClassDef
  | .mk n f m none => [.mk n f m none]
  | .mk n f m (some b) => .mk n f m (some b) :: b.chain

/-- `Instance` from `lang_types.py`: runtime class plus field map.
The field map is an association list in Python-dict insertion order. -/
structure Instance where
  cls : ClassDef
  fields : List (String × Int)
deriving Repr, DecidableEq

/-- `VarBinding` from `interpreter.py`: `inst` is the reference to the shared
runtime instance — here the address of the instance in the store. -/
structure VarBinding where
  inst : Nat
  view_cls : ClassDef
deriving Repr, DecidableEq

/-- Python-dict assignment `d[k] = v` on an association list: replace in place
if the key is present, append otherwise. -/
def dictInsert {κ α : Type} [BEq κ] : List (κ × α) → κ → α → List (κ × α)
  | [], k, v => [(k, v)]
  | (k', v') :: rest, k, v =>
    if k' == k then (k, v) :: rest
    else (k', v') :: dictInsert rest k v

/-- Interpreter state: class table, environment, and the instance heap.
`nextAddr` is the next fresh address; `output` collects printed lines. -/
structure InterpState where
  classes : List (String × ClassDef)
  env : List (String × VarBinding)
  store : List (Nat × Instance)
  nextAddr : Nat
  output : List String
deriving Repr, DecidableEq

/-- The `ValueError`s raised by `interpreter.py`, one constructor per
distinct raise site. -/
inductive ExecError : Type where
  | unknownVariable (name : String)
  | unknownClass (name : String)
  | invalidConstructorArg
  | arityMismatch (cls : String) (expected got : Nat)
  | invalidFieldAssignRhs
  | unknownField (field clsName : String)
  | methodNotFound (method viewName : String)
  | unknownFieldInMethod (field method : String)
  | invalidCast (fromName toName : String)
  | danglingRef
deriving Repr, DecidableEq

/-- Statement forms after the lightweight pattern classification of
`Interpreter._exec_statement`; tokens whose integer-vs-field status the
interpreter itself decides stay as raw strings, exactly as in the source. -/
inductive Stmt : Type where
  | letNew (var clsName : String) (args : List String)
  | letClone (var src : String)
  | letCast (var target src : String)
  | letRef (var src : String)
  | fieldAssign (var field rhs : String)
  | call (var method : String)
  | isTest (var clsName : String)
deriving Repr, DecidableEq

/-- `Interpreter._get_binding`. -/
def getBinding (env : List (String × VarBinding)) (name : String) :
    Except ExecError VarBinding :=
  match env.lookup name with
  | none => .error (.unknownVariable name)
  | some b => .ok b

/-- Dereference an instance address; never fails on states reachable from a
run (`danglingRef` models the impossible missing-object case). -/
def getInst (store : List (Nat × Instance)) (a : Nat) :
    Except ExecError Instance :=
  match store.lookup a with
  | none => .error .danglingRef
  | some i => .ok i

/-- Constructor-argument parsing inside `_exec_let` for `new`: every token
must satisfy `is_int`, and is converted with `int(tok)`. -/
def parseArgs : List String → Except ExecError (List Int)
  | [] => .ok []
  | t :: ts =>
    if is_int t then
      match parseArgs ts with
      | .error e => .error e
      | .ok rest => .ok (str_to_int t :: rest)
    else .error .invalidConstructorArg

/-- `Interpreter._instantiate`: check the class exists, check arity against
`all_fields`, then zip field names with argument values positionally. -/
def instantiate (classes : List (String × ClassDef)) (clsName : String)
    (args : List Int) : Except ExecError Instance :=
  match classes.lookup clsName with
  | none => .error (.unknownClass clsName)
  | some cls =>
    if cls.all_fields.length ≠ args.length then
      .error (.arityMismatch clsName cls.all_fields.length args.length)
    else .ok ⟨cls, cls.all_fields.zip args⟩

/-- `Interpreter._clone`: same runtime class, fresh copy of the field map. -/
def clone (i : Instance) : Instance := ⟨i.cls, i.fields⟩

/-- `Interpreter._cast_binding`: the target class must exist and the runtime
class of the referenced instance must be a subclass of it; the result aliases
the same instance and only changes the view class. -/
def cast_binding (classes : List (String × ClassDef))
    (store : List (Nat × Instance)) (b : VarBinding) (targetName : String) :
    Except ExecError VarBinding :=
  match classes.lookup targetName with
  | none => .error (.unknownClass targetName)
  | some target =>
    match getInst store b.inst with
    | .error e => .error e
    | .ok i =>
      if !i.cls.is_subclass_of target then
        .error (.invalidCast i.cls.name target.name)
      else .ok ⟨b.inst, target⟩

/-- The store after the in-place update `inst.fields[field] = value` on the
instance at address `a` (the mutation in `_exec_field_assign`). -/
def storeSetField (store : List (Nat × Instance)) (a : Nat) (i : Instance)
    (f : String) (v : Int) : List (Nat × Instance) :=
  dictInsert store a (Instance.mk i.cls (dictInsert i.fields f v))

/-- The token loop of `Interpreter._exec_call`: an `is_int` token is emitted
as its integer value; any other token is read from the runtime instance's
field map, failing when absent. -/
def evalTokens (fields : List (String × Int)) (method : String) :
    List String → Except ExecError (List Int)
  | [] => .ok []
  | t :: ts =>
    if is_int t then
      match evalTokens fields method ts with
      | .error e => .error e
      | .ok rest => .ok (str_to_int t :: rest)
    else
      match fields.lookup t with
      | none => .error (.unknownFieldInMethod t method)
      | some v =>
        match evalTokens fields method ts with
        | .error e => .error e
        | .ok rest => .ok (v :: rest)

/-- `" ".join(str(v) for v in values)`. -/
def renderLine (vals : List Int) : String :=
  String.intercalate " " (vals.map toString)

/-- One statement of `Interpreter`: `_exec_let` (its four expression forms),
`_exec_field_assign`, `_exec_call` and `_exec_is`, in source order of checks. -/
def execStmt (s : InterpState) : Stmt → Except ExecError InterpState
  | .letNew var clsName rawArgs =>
    match parseArgs rawArgs with
    | .error e => .error e
    | .ok args =>
      match instantiate s.classes clsName args with
      | .error e => .error e
      | .ok inst =>
        let a := s.nextAddr
        .ok { s with store := dictInsert s.store a inst,
                     nextAddr := a + 1,
                     env := dictInsert s.env var ⟨a, inst.cls⟩ }
  | .letClone var src =>
    match getBinding s.env src with
    | .error e => .error e
    | .ok b =>
      match getInst s.store b.inst with
      | .error e => .error e
      | .ok i =>
        let a := s.nextAddr
        .ok { s with store := dictInsert s.store a (clone i),
                     nextAddr := a + 1,
                     env := dictInsert s.env var ⟨a, b.view_cls⟩ }
  | .letCast var target src =>
    match getBinding s.env src with
    | .error e => .error e
    | .ok b =>
      match cast_binding s.classes s.store b target with
      | .error e => .error e
      | .ok nb => .ok { s with env := dictInsert s.env var nb }
  | .letRef var src =>
    match getBinding s.env src with
    | .error e => .error e
    | .ok b =>
      .ok { s with env := dictInsert s.env var ⟨b.inst, b.view_cls⟩ }
  | .fieldAssign var field rhs =>
    if !is_int rhs then .error .invalidFieldAssignRhs
    else
      match getBinding s.env var with
      | .error e => .error e
      | .ok b =>
        match getInst s.store b.inst with
        | .error e => .error e
        | .ok i =>
          match i.fields.lookup field with
          | none => .error (.unknownField field i.cls.name)
          | some _ =>
            .ok { s with store := storeSetField s.store b.inst i field (str_to_int rhs) }
  | .call var method =>
    match getBinding s.env var with
    | .error e => .error e
    | .ok b =>
      match getInst s.store b.inst with
      | .error e => .error e
      | .ok i =>
        match b.view_cls.lookup_method method with
        | none => .error (.methodNotFound method b.view_cls.name)
        | some toks =>
          match evalTokens i.fields method toks with
          | .error e => .error e
          | .ok vals => .ok { s with output := s.output ++ [renderLine vals] }
  | .isTest var clsName =>
    match s.env.lookup var, s.classes.lookup clsName with
    | some b, some cls =>
      match getInst s.store b.inst with
      | .error e => .error e
      | .ok i =>
        .ok { s with output := s.output ++
                [if i.cls.is_subclass_of cls then "IS" else "ISN\x27T"] }
    | _, _ => .ok { s with output := s.output ++ ["ISN\x27T"] }

/-- `Interpreter.run`: execute the statements in order, halting at the first
error (the Python exception propagates out of `run`). -/
def run (s : InterpState) : List Stmt → Except ExecError InterpState
  | [] => .ok s
  | st :: rest =>
    match execStmt s st with
    | .error e => .error e
    | .ok s' => run s' rest

/-- Initial interpreter state over a resolved class table. -/
def initState (classes : List (String × ClassDef)) : InterpState :=
  ⟨classes, [], [], 0, []⟩

/-! ### The running example from the specification

Class `A` (no base, field `a`, method `show -> [a]`); class `B` extends `A`
(field `b`, overriding method `show -> [b]`). -/

def clsA : ClassDef := .mk "A" ["a"] [("show", ["a"])] none

def clsB : ClassDef := .mk "B" ["b"] [("show", ["b"])] (some clsA)

def demoClasses : List (String × ClassDef) := [("A", clsA), ("B", clsB)]

/-- `let x = new B(1, 2); let y = cast<A> x`. -/
def demoProg : List Stmt :=
  [.letNew "x" "B" ["1", "2"], .letCast "y" "A" "x"]

/-- The state after `demoProg`: one `B` instance `{a=1, b=2}` at address 0,
`x` viewing it as `B` and `y` viewing it as `A`. -/
def demoState : InterpState :=
  ⟨demoClasses,
   [("x", ⟨0, clsB⟩), ("y", ⟨0, clsA⟩)],
   [(0, ⟨clsB, [("a", 1), ("b", 2)]⟩)],
   1, []⟩

/-- A state holding only an `A` instance `{a=7}` bound to `w` (used to
exercise the failing downcast `cast<B> w`). -/
def demoStateA : InterpState :=
  ⟨demoClasses, [("w", ⟨0, clsA⟩)], [(0, ⟨clsA, [("a", 7)]⟩)], 1, []⟩

/-! ### Dictionary (association-list) lemmas -/

theorem lookup_cons_eq {κ α : Type} [BEq κ] [LawfulBEq κ]
    (k : κ) (v : α) (rest : List (κ × α)) :
    List.lookup k ((k, v) :: rest) = some v := by
  simp [List.lookup_cons]

theorem lookup_cons_ne {κ α : Type} [BEq κ] [LawfulBEq κ] {k k' : κ}
    (h : k' ≠ k) (v : α) (rest : List (κ × α)) :
    List.lookup k' ((k, v) :: rest) = List.lookup k' rest := by
  simp [List.lookup_cons, beq_false_of_ne h]

theorem lookup_dictInsert {κ α : Type} [BEq κ] [LawfulBEq κ] [DecidableEq κ]
    (d : List (κ × α)) (k k' : κ) (v : α) :
    (dictInsert d k v).lookup k' = if k' = k then some v else d.lookup k' := by
  induction d with
  | nil =>
    by_cases h : k' = k
    · subst h; simp [dictInsert, lookup_cons_eq]
    · simp [dictInsert, lookup_cons_ne h, if_neg h]
  | cons p rest ih =>
    obtain ⟨k0, v0⟩ := p
    by_cases h0 : k0 = k
    · subst h0
      rw [show dictInsert ((k0, v0) :: rest) k0 v = (k0, v) :: rest by simp [dictInsert]]
      by_cases h : k' = k0
      · subst h; simp [lookup_cons_eq]
      · simp [lookup_cons_ne h, if_neg h]
    · rw [show dictInsert ((k0, v0) :: rest) k v = (k0, v0) :: dictInsert rest k v by
        simp [dictInsert, beq_false_of_ne h0]]
      by_cases h : k' = k0
      · subst h
        have hne : k' ≠ k := fun hh => h0 (hh ▸ rfl)
        simp [lookup_cons_eq, if_neg hne]
      · simp [lookup_cons_ne h, ih]

theorem lookup_dictInsert_self {κ α : Type} [BEq κ] [LawfulBEq κ] [DecidableEq κ]
    (d : List (κ × α)) (k : κ) (v : α) :
    (dictInsert d k v).lookup k = some v := by
  rw [lookup_dictInsert, if_pos rfl]

theorem lookup_dictInsert_ne {κ α : Type} [BEq κ] [LawfulBEq κ] [DecidableEq κ]
    (d : List (κ × α)) (k k' : κ) (v : α) (h : k' ≠ k) :
    (dictInsert d k v).lookup k' = d.lookup k' := by
  rw [lookup_dictInsert, if_neg h]

theorem lookup_dictInsert_inv {κ α : Type} [BEq κ] [LawfulBEq κ] [DecidableEq κ]
    {d : List (κ × α)} {k k' : κ} {v v' : α}
    (h : (dictInsert d k v).lookup k' = some v') :
    (k' = k ∧ v' = v) ∨ (k' ≠ k ∧ d.lookup k' = some v') := by
  rw [lookup_dictInsert] at h
  by_cases hk : k' = k
  · rw [if_pos hk] at h
    exact Or.inl ⟨hk, (Option.some.inj h).symm⟩
  · rw [if_neg hk] at h
    exact Or.inr ⟨hk, h⟩

/-! ### Class-chain lemmas -/

theorem is_subclass_of_self (c : ClassDef) : c.is_subclass_of c = true := by
  cases c with
  | mk n f m b => simp [ClassDef.is_subclass_of.eq_def, ClassDef.name]

/-- `lookup_method` returns the body from the first class in the chain
(self, then bases, leaf-to-root) whose method table declares the name. -/
theorem lookup_method_eq_chain_findSome :
    (c : ClassDef) → ∀ m : String,
      c.lookup_method m = c.chain.findSome? (fun k => k.methods.lookup m)
  | .mk n f ms none, m => by
    simp only [ClassDef.lookup_method, ClassDef.chain, List.findSome?, ClassDef.methods]
    cases h : List.lookup m ms <;> simp [h]
  | .mk n f ms (some b), m => by
    simp only [ClassDef.lookup_method, ClassDef.chain, List.findSome?_cons, ClassDef.methods]
    cases h : List.lookup m ms with
    | none =>
      simp only [h]
      exact lookup_method_eq_chain_findSome b m
    | some toks => simp [h]

/-- `all_fields` concatenates the fields of the chain in root-to-leaf order. -/
theorem all_fields_eq_chain_flatMap :
    (c : ClassDef) → c.all_fields = c.chain.reverse.flatMap ClassDef.fields
  | .mk n f ms none => by
    simp [ClassDef.all_fields, ClassDef.chain, ClassDef.fields]
  | .mk n f ms (some b) => by
    rw [ClassDef.all_fields, ClassDef.chain, List.reverse_cons, List.flatMap_append,
        ← all_fields_eq_chain_flatMap b]
    simp [ClassDef.fields]


/-! ### Token and argument evaluation lemmas -/

theorem parseArgs_all_int :
    (toks : List String) → (∀ t ∈ toks, is_int t = true) →
      parseArgs toks = .ok (toks.map str_to_int)
  | [], _ => rfl
  | t :: ts, h => by
    have ht : is_int t = true := h t (List.mem_cons_self t ts)
    have ih := parseArgs_all_int ts (fun u hu => h u (List.mem_cons_of_mem t hu))
    simp [parseArgs, ht, ih]

theorem evalTokens_all_resolve (fields : List (String × Int)) (m : String) :
    (toks : List String) →
    (∀ t ∈ toks, is_int t = true ∨ (fields.lookup t).isSome = true) →
      evalTokens fields m toks =
        .ok (toks.map fun t =>
          if is_int t then str_to_int t else (fields.lookup t).getD 0)
  | [], _ => rfl
  | t :: ts, h => by
    have ih := evalTokens_all_resolve fields m ts
      (fun u hu => h u (List.mem_cons_of_mem t hu))
    rcases h t (List.mem_cons_self t ts) with ht | ht
    · simp [evalTokens, ht, ih]
    · obtain ⟨v, hv⟩ := Option.isSome_iff_exists.mp ht
      by_cases hint : is_int t
      · simp [evalTokens, hint, ih]
      · simp [evalTokens, hint, hv, ih]

theorem evalTokens_error (fields : List (String × Int)) (m : String) :
    (toks : List String) → ∀ e, evalTokens fields m toks = .error e →
      ∃ t, t ∈ toks ∧ is_int t = false ∧ fields.lookup t = none ∧
        e = .unknownFieldInMethod t m
  | [], e => by simp [evalTokens]
  | t :: ts, e => by
    intro h
    by_cases hint : is_int t
    · simp only [evalTokens, hint, if_true] at h
      cases hrest : evalTokens fields m ts with
      | error e2 =>
        rw [hrest] at h
        obtain ⟨u, hu, h1, h2, h3⟩ :=
          evalTokens_error fields m ts e2 hrest
        cases h
        exact ⟨u, List.mem_cons_of_mem t hu, h1, h2, h3⟩
      | ok vals => rw [hrest] at h; cases h
    · simp only [evalTokens, hint, if_false, Bool.false_eq_true] at h
      cases hlk : fields.lookup t with
      | none =>
        rw [hlk] at h
        cases h
        exact ⟨t, List.mem_cons_self t ts, by simpa using hint, hlk, rfl⟩
      | some v =>
        rw [hlk] at h
        cases hrest : evalTokens fields m ts with
        | error e2 =>
          rw [hrest] at h
          obtain ⟨u, hu, h1, h2, h3⟩ :=
            evalTokens_error fields m ts e2 hrest
          cases h
          exact ⟨u, List.mem_cons_of_mem t hu, h1, h2, h3⟩
        | ok vals => rw [hrest] at h; cases h

/-! ### Statement-level characterizations -/

theorem exec_call_eq (s : InterpState) (x m : String) (b : VarBinding)
    (i : Instance) (hb : s.env.lookup x = some b)
    (hi : s.store.lookup b.inst = some i) :
    execStmt s (.call x m) =
      match b.view_cls.lookup_method m with
      | none => .error (.methodNotFound m b.view_cls.name)
      | some toks =>
        match evalTokens i.fields m toks with
        | .error e => .error e
        | .ok vals => .ok { s with output := s.output ++ [renderLine vals] } := by
  simp [execStmt, getBinding, getInst, hb, hi]

theorem exec_letRef_eq (s : InterpState) (v src : String) (b : VarBinding)
    (hb : s.env.lookup src = some b) :
    execStmt s (.letRef v src) =
      .ok { s with env := dictInsert s.env v ⟨b.inst, b.view_cls⟩ } := by
  simp [execStmt, getBinding, hb]

theorem exec_letRef_unbound (s : InterpState) (v src : String)
    (hb : s.env.lookup src = none) :
    execStmt s (.letRef v src) = .error (.unknownVariable src) := by
  simp [execStmt, getBinding, hb]

theorem exec_letClone_eq (s : InterpState) (v src : String) (b : VarBinding)
    (i : Instance) (hb : s.env.lookup src = some b)
    (hi : s.store.lookup b.inst = some i) :
    execStmt s (.letClone v src) =
      .ok { s with store := dictInsert s.store s.nextAddr (clone i),
                   nextAddr := s.nextAddr + 1,
                   env := dictInsert s.env v ⟨s.nextAddr, b.view_cls⟩ } := by
  simp [execStmt, getBinding, getInst, hb, hi]

theorem exec_letClone_unbound (s : InterpState) (v src : String)
    (hb : s.env.lookup src = none) :
    execStmt s (.letClone v src) = .error (.unknownVariable src) := by
  simp [execStmt, getBinding, hb]

theorem exec_letCast_ok (s : InterpState) (v target src : String)
    (b : VarBinding) (cls : ClassDef) (i : Instance)
    (hb : s.env.lookup src = some b) (hc : s.classes.lookup target = some cls)
    (hi : s.store.lookup b.inst = some i)
    (hsub : i.cls.is_subclass_of cls = true) :
    execStmt s (.letCast v target src) =
      .ok { s with env := dictInsert s.env v ⟨b.inst, cls⟩ } := by
  simp [execStmt, getBinding, getInst, cast_binding, hb, hc, hi, hsub]

theorem exec_letCast_fail (s : InterpState) (v target src : String)
    (b : VarBinding) (cls : ClassDef) (i : Instance)
    (hb : s.env.lookup src = some b) (hc : s.classes.lookup target = some cls)
    (hi : s.store.lookup b.inst = some i)
    (hsub : i.cls.is_subclass_of cls = false) :
    execStmt s (.letCast v target src) =
      .error (.invalidCast i.cls.name cls.name) := by
  simp [execStmt, getBinding, getInst, cast_binding, hb, hc, hi, hsub]

theorem exec_letNew_ok (s : InterpState) (v nm : String) (raw : List String)
    (args : List Int) (inst : Instance) (hpa : parseArgs raw = .ok args)
    (hin : instantiate s.classes nm args = .ok inst) :
    execStmt s (.letNew v nm raw) =
      .ok { s with store := dictInsert s.store s.nextAddr inst,
                   nextAddr := s.nextAddr + 1,
                   env := dictInsert s.env v ⟨s.nextAddr, inst.cls⟩ } := by
  simp [execStmt, hpa, hin]

theorem exec_letNew_instErr (s : InterpState) (v nm : String)
    (raw : List String) (args : List Int) (e : ExecError)
    (hpa : parseArgs raw = .ok args)
    (hin : instantiate s.classes nm args = .error e) :
    execStmt s (.letNew v nm raw) = .error e := by
  simp [execStmt, hpa, hin]

theorem instantiate_ok (classes : List (String × ClassDef)) (nm : String)
    (cls : ClassDef) (args : List Int) (hc : classes.lookup nm = some cls)
    (hlen : cls.all_fields.length = args.length) :
    instantiate classes nm args = .ok ⟨cls, cls.all_fields.zip args⟩ := by
  simp [instantiate, hc, hlen]

theorem instantiate_arity_err (classes : List (String × ClassDef)) (nm : String)
    (cls : ClassDef) (args : List Int) (hc : classes.lookup nm = some cls)
    (hlen : cls.all_fields.length ≠ args.length) :
    instantiate classes nm args =
      .error (.arityMismatch nm cls.all_fields.length args.length) := by
  simp [instantiate, hc, hlen]

theorem exec_fieldAssign_badRhs (s : InterpState) (v f rhs : String)
    (h : is_int rhs = false) :
    execStmt s (.fieldAssign v f rhs) = .error .invalidFieldAssignRhs := by
  simp [execStmt, h]

theorem exec_fieldAssign_unbound (s : InterpState) (v f rhs : String)
    (hrhs : is_int rhs = true) (hb : s.env.lookup v = none) :
    execStmt s (.fieldAssign v f rhs) = .error (.unknownVariable v) := by
  simp [execStmt, getBinding, hrhs, hb]

theorem exec_fieldAssign_noField (s : InterpState) (v f rhs : String)
    (b : VarBinding) (i : Instance) (hrhs : is_int rhs = true)
    (hb : s.env.lookup v = some b) (hi : s.store.lookup b.inst = some i)
    (hf : i.fields.lookup f = none) :
    execStmt s (.fieldAssign v f rhs) = .error (.unknownField f i.cls.name) := by
  simp [execStmt, getBinding, getInst, hrhs, hb, hi, hf]

theorem exec_fieldAssign_ok (s : InterpState) (v f rhs : String)
    (b : VarBinding) (i : Instance) (w : Int) (hrhs : is_int rhs = true)
    (hb : s.env.lookup v = some b) (hi : s.store.lookup b.inst = some i)
    (hf : i.fields.lookup f = some w) :
    execStmt s (.fieldAssign v f rhs) =
      .ok { s with store := storeSetField s.store b.inst i f (str_to_int rhs) } := by
  simp [execStmt, getBinding, getInst, hrhs, hb, hi, hf]

theorem exec_is_permissive (s : InterpState) (x c : String)
    (h : s.env.lookup x = none ∨ s.classes.lookup c = none) :
    execStmt s (.isTest x c) =
      .ok { s with output := s.output ++ ["ISN\x27T"] } := by
  rcases h with h | h
  · cases hc : s.classes.lookup c <;> simp [execStmt, h, hc]
  · cases hb : s.env.lookup x <;> simp [execStmt, h, hb]

theorem exec_is_runtime (s : InterpState) (x c : String) (b : VarBinding)
    (cls : ClassDef) (i : Instance) (hb : s.env.lookup x = some b)
    (hc : s.classes.lookup c = some cls) (hi : s.store.lookup b.inst = some i) :
    execStmt s (.isTest x c) =
      .ok { s with output := s.output ++
              [if i.cls.is_subclass_of cls then "IS" else "ISN\x27T"] } := by
  simp [execStmt, getInst, hb, hc, hi]




/-! ### Inversion lemmas -/

theorem getBinding_ok_inv {env : List (String × VarBinding)} {n : String}
    {b : VarBinding} (h : getBinding env n = .ok b) : env.lookup n = some b := by
  unfold getBinding at h
  cases hl : env.lookup n with
  | none => simp only [hl] at h; cases h
  | some b2 => simp only [hl] at h; cases h; rfl

theorem getInst_ok_inv {store : List (Nat × Instance)} {a : Nat} {i : Instance}
    (h : getInst store a = .ok i) : store.lookup a = some i := by
  unfold getInst at h
  cases hl : store.lookup a with
  | none => simp only [hl] at h; cases h
  | some i2 => simp only [hl] at h; cases h; rfl

theorem cast_binding_ok_inv {classes : List (String × ClassDef)}
    {store : List (Nat × Instance)} {b : VarBinding} {target : String}
    {nb : VarBinding} (h : cast_binding classes store b target = .ok nb) :
    ∃ cls i, classes.lookup target = some cls ∧ store.lookup b.inst = some i ∧
      i.cls.is_subclass_of cls = true ∧ nb = ⟨b.inst, cls⟩ := by
  unfold cast_binding at h
  cases hc : classes.lookup target with
  | none => simp only [hc] at h; cases h
  | some cls =>
    simp only [hc] at h
    cases hi : getInst store b.inst with
    | error e => simp only [hi] at h; cases h
    | ok i =>
      simp only [hi] at h
      cases hsub : i.cls.is_subclass_of cls with
      | false => simp only [hsub, Bool.not_false, if_true] at h; cases h
      | true =>
        simp only [hsub, Bool.not_true, Bool.false_eq_true, if_false] at h
        cases h
        exact ⟨cls, i, rfl, getInst_ok_inv hi, hsub, rfl⟩

theorem instantiate_ok_inv {classes : List (String × ClassDef)} {nm : String}
    {args : List Int} {inst : Instance}
    (h : instantiate classes nm args = .ok inst) :
    ∃ cls, classes.lookup nm = some cls ∧ cls.all_fields.length = args.length ∧
      inst = ⟨cls, cls.all_fields.zip args⟩ := by
  unfold instantiate at h
  cases hc : classes.lookup nm with
  | none => simp only [hc] at h; cases h
  | some cls =>
    simp only [hc] at h
    by_cases hlen : cls.all_fields.length = args.length
    · rw [if_neg (by simp [hlen])] at h
      cases h
      exact ⟨cls, rfl, hlen, rfl⟩
    · rw [if_pos hlen] at h
      cases h

theorem exec_letNew_ok_inv {s : InterpState} {v nm : String}
    {raw : List String} {s' : InterpState}
    (h : execStmt s (.letNew v nm raw) = .ok s') :
    ∃ args inst, parseArgs raw = .ok args ∧
      instantiate s.classes nm args = .ok inst ∧
      s' = { s with store := dictInsert s.store s.nextAddr inst,
                    nextAddr := s.nextAddr + 1,
                    env := dictInsert s.env v ⟨s.nextAddr, inst.cls⟩ } := by
  simp only [execStmt] at h
  cases hpa : parseArgs raw with
  | error e => simp only [hpa] at h; cases h
  | ok args =>
    simp only [hpa] at h
    cases hin : instantiate s.classes nm args with
    | error e => simp only [hin] at h; cases h
    | ok inst =>
      simp only [hin] at h
      cases h
      exact ⟨args, inst, rfl, hin, rfl⟩

theorem exec_letClone_ok_inv {s : InterpState} {v src : String}
    {s' : InterpState} (h : execStmt s (.letClone v src) = .ok s') :
    ∃ b i, s.env.lookup src = some b ∧ s.store.lookup b.inst = some i ∧
      s' = { s with store := dictInsert s.store s.nextAddr (clone i),
                    nextAddr := s.nextAddr + 1,
                    env := dictInsert s.env v ⟨s.nextAddr, b.view_cls⟩ } := by
  simp only [execStmt] at h
  cases hb : getBinding s.env src with
  | error e => simp only [hb] at h; cases h
  | ok b =>
    simp only [hb] at h
    cases hi : getInst s.store b.inst with
    | error e => simp only [hi] at h; cases h
    | ok i =>
      simp only [hi] at h
      cases h
      exact ⟨b, i, getBinding_ok_inv hb, getInst_ok_inv hi, rfl⟩

theorem exec_letCast_ok_inv {s : InterpState} {v target src : String}
    {s' : InterpState} (h : execStmt s (.letCast v target src) = .ok s') :
    ∃ b cls i, s.env.lookup src = some b ∧
      s.classes.lookup target = some cls ∧
      s.store.lookup b.inst = some i ∧ i.cls.is_subclass_of cls = true ∧
      s' = { s with env := dictInsert s.env v ⟨b.inst, cls⟩ } := by
  simp only [execStmt] at h
  cases hb : getBinding s.env src with
  | error e => simp only [hb] at h; cases h
  | ok b =>
    simp only [hb] at h
    cases hcb : cast_binding s.classes s.store b target with
    | error e => simp only [hcb] at h; cases h
    | ok nb =>
      simp only [hcb] at h
      cases h
      obtain ⟨cls, i, h1, h2, h3, h4⟩ := cast_binding_ok_inv hcb
      subst h4
      exact ⟨b, cls, i, getBinding_ok_inv hb, h1, h2, h3, rfl⟩

theorem exec_letRef_ok_inv {s : InterpState} {v src : String}
    {s' : InterpState} (h : execStmt s (.letRef v src) = .ok s') :
    ∃ b, s.env.lookup src = some b ∧
      s' = { s with env := dictInsert s.env v ⟨b.inst, b.view_cls⟩ } := by
  simp only [execStmt] at h
  cases hb : getBinding s.env src with
  | error e => simp only [hb] at h; cases h
  | ok b =>
    simp only [hb] at h
    cases h
    exact ⟨b, getBinding_ok_inv hb, rfl⟩

theorem exec_fieldAssign_ok_inv {s : InterpState} {v f rhs : String}
    {s' : InterpState} (h : execStmt s (.fieldAssign v f rhs) = .ok s') :
    ∃ b i w, is_int rhs = true ∧ s.env.lookup v = some b ∧
      s.store.lookup b.inst = some i ∧ i.fields.lookup f = some w ∧
      s' = { s with store := storeSetField s.store b.inst i f (str_to_int rhs) } := by
  simp only [execStmt] at h
  cases hrhs : is_int rhs with
  | false => simp only [hrhs, Bool.not_false, if_true] at h; cases h
  | true =>
    simp only [hrhs, Bool.not_true, Bool.false_eq_true, if_false] at h
    cases hb : getBinding s.env v with
    | error e => simp only [hb] at h; cases h
    | ok b =>
      simp only [hb] at h
      cases hi : getInst s.store b.inst with
      | error e => simp only [hi] at h; cases h
      | ok i =>
        simp only [hi] at h
        cases hf : i.fields.lookup f with
        | none => simp only [hf] at h; cases h
        | some w =>
          simp only [hf] at h
          cases h
          exact ⟨b, i, w, rfl, getBinding_ok_inv hb, getInst_ok_inv hi, hf, rfl⟩

theorem exec_call_ok_inv {s : InterpState} {x m : String} {s' : InterpState}
    (h : execStmt s (.call x m) = .ok s') :
    s'.classes = s.classes ∧ s'.env = s.env ∧ s'.store = s.store ∧
      s'.nextAddr = s.nextAddr := by
  simp only [execStmt] at h
  cases hb : getBinding s.env x with
  | error e => simp only [hb] at h; cases h
  | ok b =>
    simp only [hb] at h
    cases hi : getInst s.store b.inst with
    | error e => simp only [hi] at h; cases h
    | ok i =>
      simp only [hi] at h
      cases hm : b.view_cls.lookup_method m with
      | none => simp only [hm] at h; cases h
      | some toks =>
        simp only [hm] at h
        cases he : evalTokens i.fields m toks with
        | error e => simp only [he] at h; cases h
        | ok vals => simp only [he] at h; cases h; exact ⟨rfl, rfl, rfl, rfl⟩

theorem exec_isTest_ok_inv {s : InterpState} {x c : String} {s' : InterpState}
    (h : execStmt s (.isTest x c) = .ok s') :
    s'.classes = s.classes ∧ s'.env = s.env ∧ s'.store = s.store ∧
      s'.nextAddr = s.nextAddr := by
  simp only [execStmt] at h
  cases hb : s.env.lookup x with
  | none => simp only [hb] at h; cases h; exact ⟨rfl, rfl, rfl, rfl⟩
  | some b =>
    simp only [hb] at h
    cases hc : s.classes.lookup c with
    | none => simp only [hc] at h; cases h; exact ⟨rfl, rfl, rfl, rfl⟩
    | some cls =>
      simp only [hc] at h
      cases hi : getInst s.store b.inst with
      | error e => simp only [hi] at h; cases h
      | ok i => simp only [hi] at h; cases h; exact ⟨rfl, rfl, rfl, rfl⟩



/-! ### The binding invariant (view class above runtime class) -/

/-- Every binding in the environment refers to a stored instance whose
runtime class is a subclass of the binding's view class. -/
def Invariant (s : InterpState) : Prop :=
  ∀ x b, s.env.lookup x = some b →
    ∃ i, s.store.lookup b.inst = some i ∧ i.cls.is_subclass_of b.view_cls = true

/-- All store addresses are below the allocation counter. -/
def AddrBound (s : InterpState) : Prop :=
  ∀ a i, s.store.lookup a = some i → a < s.nextAddr

def WF (s : InterpState) : Prop := AddrBound s ∧ Invariant s

theorem WF_initState (classes : List (String × ClassDef)) :
    WF (initState classes) := by
  constructor
  · intro a i hl; cases hl
  · intro x b hl; cases hl

theorem execStmt_preserves_WF {s : InterpState} {st : Stmt} {s' : InterpState}
    (hwf : WF s) (h : execStmt s st = .ok s') : WF s' := by
  obtain ⟨hbound, hinv⟩ := hwf
  cases st with
  | letNew v nm raw =>
    obtain ⟨args, inst, hpa, hin, hs'⟩ := exec_letNew_ok_inv h
    subst hs'
    refine ⟨?_, ?_⟩
    · intro a i hl
      rcases lookup_dictInsert_inv hl with ⟨rfl, rfl⟩ | ⟨hne, hold⟩
      · exact Nat.lt_succ_self _
      · exact Nat.lt_succ_of_lt (hbound a i hold)
    · intro x b hl
      rcases lookup_dictInsert_inv hl with ⟨rfl, rfl⟩ | ⟨hne, hold⟩
      · exact ⟨inst, lookup_dictInsert_self _ _ _, is_subclass_of_self _⟩
      · obtain ⟨i0, hi0, hsub⟩ := hinv x b hold
        have hlt : b.inst < s.nextAddr := hbound _ _ hi0
        refine ⟨i0, ?_, hsub⟩
        rw [lookup_dictInsert_ne _ _ _ _ (Nat.ne_of_lt hlt)]
        exact hi0
  | letClone v src =>
    obtain ⟨b, i, hb, hi, hs'⟩ := exec_letClone_ok_inv h
    subst hs'
    refine ⟨?_, ?_⟩
    · intro a j hl
      rcases lookup_dictInsert_inv hl with ⟨rfl, rfl⟩ | ⟨hne, hold⟩
      · exact Nat.lt_succ_self _
      · exact Nat.lt_succ_of_lt (hbound a j hold)
    · intro x b2 hl
      rcases lookup_dictInsert_inv hl with ⟨rfl, rfl⟩ | ⟨hne, hold⟩
      · obtain ⟨i0, hi0, hsub⟩ := hinv src b hb
        rw [hi] at hi0
        cases hi0
        exact ⟨clone i, lookup_dictInsert_self _ _ _, hsub⟩
      · obtain ⟨i0, hi0, hsub⟩ := hinv x b2 hold
        have hlt : b2.inst < s.nextAddr := hbound _ _ hi0
        refine ⟨i0, ?_, hsub⟩
        rw [lookup_dictInsert_ne _ _ _ _ (Nat.ne_of_lt hlt)]
        exact hi0
  | letCast v target src =>
    obtain ⟨b, cls, i, hb, hc, hi, hsub, hs'⟩ := exec_letCast_ok_inv h
    subst hs'
    refine ⟨hbound, ?_⟩
    intro x b2 hl
    rcases lookup_dictInsert_inv hl with ⟨rfl, rfl⟩ | ⟨hne, hold⟩
    · exact ⟨i, hi, hsub⟩
    · exact hinv x b2 hold
  | letRef v src =>
    obtain ⟨b, hb, hs'⟩ := exec_letRef_ok_inv h
    subst hs'
    refine ⟨hbound, ?_⟩
    intro x b2 hl
    rcases lookup_dictInsert_inv hl with ⟨rfl, rfl⟩ | ⟨hne, hold⟩
    · exact hinv src b hb
    · exact hinv x b2 hold
  | fieldAssign v f rhs =>
    obtain ⟨b, i, w, hrhs, hb, hi, hf, hs'⟩ := exec_fieldAssign_ok_inv h
    subst hs'
    refine ⟨?_, ?_⟩
    · intro a j hl
      unfold storeSetField at hl
      rcases lookup_dictInsert_inv hl with ⟨rfl, rfl⟩ | ⟨hne, hold⟩
      · exact hbound _ _ hi
      · exact hbound a j hold
    · intro x b2 hl
      obtain ⟨i0, hi0, hsub⟩ := hinv x b2 hl
      by_cases heq : b2.inst = b.inst
      · rw [heq] at hi0
        rw [hi] at hi0
        cases hi0
        refine ⟨⟨i.cls, dictInsert i.fields f (str_to_int rhs)⟩, ?_, hsub⟩
        unfold storeSetField
        rw [heq]
        exact lookup_dictInsert_self _ _ _
      · refine ⟨i0, ?_, hsub⟩
        unfold storeSetField
        rw [lookup_dictInsert_ne _ _ _ _ heq]
        exact hi0
  | call x m =>
    obtain ⟨hc, he, hst, hn⟩ := exec_call_ok_inv h
    refine ⟨?_, ?_⟩
    · intro a i hl; rw [hst] at hl; rw [hn]; exact hbound a i hl
    · intro x2 b hl
      rw [he] at hl
      obtain ⟨i, hi, hsub⟩ := hinv x2 b hl
      refine ⟨i, ?_, hsub⟩
      rw [hst]
      exact hi
  | isTest x c =>
    obtain ⟨hc, he, hst, hn⟩ := exec_isTest_ok_inv h
    refine ⟨?_, ?_⟩
    · intro a i hl; rw [hst] at hl; rw [hn]; exact hbound a i hl
    · intro x2 b hl
      rw [he] at hl
      obtain ⟨i, hi, hsub⟩ := hinv x2 b hl
      refine ⟨i, ?_, hsub⟩
      rw [hst]
      exact hi

theorem run_preserves_WF :
    {prog : List Stmt} → {s s' : InterpState} → WF s →
      run s prog = .ok s' → WF s'
  | [], s, s', hwf, h => by
    unfold run at h
    cases h
    exact hwf
  | st :: rest, s, s', hwf, h => by
    unfold run at h
    cases hst : execStmt s st with
    | error e => simp only [hst] at h; cases h
    | ok s1 =>
      simp only [hst] at h
      exact run_preserves_WF (execStmt_preserves_WF hwf hst) h

/-- The variable a `let` statement (re)binds, if any; all other statements
bind nothing. -/
def letTarget : Stmt → Option String
  | .letNew v _ _ => some v
  | .letClone v _ => some v
  | .letCast v _ _ => some v
  | .letRef v _ => some v
  | .fieldAssign _ _ _ => none
  | .call _ _ => none
  | .isTest _ _ => none

/-- A successful statement leaves every binding other than its own `let`
target untouched (bindings are replaced, never mutated in place). -/
theorem execStmt_preserves_other_bindings {s : InterpState} {st : Stmt}
    {s' : InterpState} {x : String} (h : execStmt s st = .ok s')
    (hx : letTarget st ≠ some x) : s'.env.lookup x = s.env.lookup x := by
  cases st with
  | letNew v nm raw =>
    obtain ⟨args, inst, hpa, hin, hs'⟩ := exec_letNew_ok_inv h
    subst hs'
    exact lookup_dictInsert_ne _ _ _ _ (fun hxv => hx (by rw [hxv]; rfl))
  | letClone v src =>
    obtain ⟨b, i, hb, hi, hs'⟩ := exec_letClone_ok_inv h
    subst hs'
    exact lookup_dictInsert_ne _ _ _ _ (fun hxv => hx (by rw [hxv]; rfl))
  | letCast v target src =>
    obtain ⟨b, cls, i, hb, hc, hi, hsub, hs'⟩ := exec_letCast_ok_inv h
    subst hs'
    exact lookup_dictInsert_ne _ _ _ _ (fun hxv => hx (by rw [hxv]; rfl))
  | letRef v src =>
    obtain ⟨b, hb, hs'⟩ := exec_letRef_ok_inv h
    subst hs'
    exact lookup_dictInsert_ne _ _ _ _ (fun hxv => hx (by rw [hxv]; rfl))
  | fieldAssign v f rhs =>
    obtain ⟨b, i, w, hrhs, hb, hi, hs'⟩ := exec_fieldAssign_ok_inv h
    obtain ⟨hf, hs'⟩ := hs'
    subst hs'
    rfl
  | call v m => rw [(exec_call_ok_inv h).2.1]
  | isTest v c => rw [(exec_isTest_ok_inv h).2.1]



/-! ### Claim theorems -/

/-- C1: `call x.m` resolves the method by walking the class chain starting at
the binding view class — the first class in that chain declaring `m` wins, and
a miss across the whole chain is MethodNotFound; each integer-literal token of
the resolved body is emitted as that integer, every other token is read from
the runtime instance field map (UnknownFieldInMethod when absent), and the
values are printed as one space-separated line in token order.  In particular,
with base class A (`show -> [a]`), derived class B overriding `show -> [b]`,
and a binding of runtime class B but view class A, the call emits the
resolution of A, not the override of B. -/
theorem call_resolves_by_view_class :
    (∀ (s : InterpState) (x m : String) (b : VarBinding) (i : Instance),
       s.env.lookup x = some b → s.store.lookup b.inst = some i →
       execStmt s (.call x m) =
         match b.view_cls.lookup_method m with
         | none => .error (.methodNotFound m b.view_cls.name)
         | some toks =>
           match evalTokens i.fields m toks with
           | .error e => .error e
           | .ok vals => .ok { s with output := s.output ++ [renderLine vals] })
  ∧ (∀ (c : ClassDef) (m : String),
       c.lookup_method m = c.chain.findSome? (fun k => k.methods.lookup m))
  ∧ (∀ (fields : List (String × Int)) (m : String) (toks : List String),
       (∀ t ∈ toks, is_int t = true ∨ (fields.lookup t).isSome = true) →
       evalTokens fields m toks =
         .ok (toks.map fun t =>
           if is_int t then str_to_int t else (fields.lookup t).getD 0))
  ∧ (∀ (fields : List (String × Int)) (m : String) (toks : List String)
       (e : ExecError), evalTokens fields m toks = .error e →
       ∃ t, t ∈ toks ∧ is_int t = false ∧ fields.lookup t = none ∧
         e = .unknownFieldInMethod t m)
  ∧ ((run demoState [.call "y" "show", .call "x" "show"]).map
       InterpState.output = .ok ["1", "2"]) := by
  refine ⟨exec_call_eq, lookup_method_eq_chain_findSome, evalTokens_all_resolve,
    evalTokens_error, ?_⟩
  rfl

/-- Witness for C1: in the demo state, `y` aliases the `B` instance with view
class A; the call through `y` resolves the body of A and prints field `a`. -/
theorem call_resolves_by_view_class_witness :
    demoState.env.lookup "y" = some ⟨0, clsA⟩ ∧
    demoState.store.lookup 0 = some (Instance.mk clsB [("a", 1), ("b", 2)]) ∧
    execStmt demoState (.call "y" "show") =
      .ok { demoState with output := ["1"] } :=
  ⟨rfl, rfl, by
    have h := call_resolves_by_view_class.1 demoState "y" "show" ⟨0, clsA⟩
      (Instance.mk clsB [("a", 1), ("b", 2)]) rfl rfl
    exact h.trans (by rfl)⟩

/-- C2: the `is` test reports the negative verdict, without raising, whenever
the variable is unbound or the class undeclared; otherwise it reports IS
exactly when the runtime class of the bound instance is a subclass of the
named class — the binding view class plays no role. -/
theorem is_test_uses_runtime_class :
    (∀ (s : InterpState) (x c : String),
       s.env.lookup x = none ∨ s.classes.lookup c = none →
       execStmt s (.isTest x c) =
         .ok { s with output := s.output ++ ["ISN\x27T"] })
  ∧ (∀ (s : InterpState) (x c : String) (b : VarBinding) (cls : ClassDef)
       (i : Instance), s.env.lookup x = some b →
       s.classes.lookup c = some cls → s.store.lookup b.inst = some i →
       execStmt s (.isTest x c) =
         .ok { s with output := s.output ++
                 [if i.cls.is_subclass_of cls then "IS" else "ISN\x27T"] }) :=
  ⟨exec_is_permissive, exec_is_runtime⟩

/-- Witness for C2: an instance of B viewed as A still reports IS for `is B`,
because the test consults the runtime class. -/
theorem is_test_uses_runtime_class_witness :
    demoState.env.lookup "y" = some ⟨0, clsA⟩ ∧
    demoState.classes.lookup "B" = some clsB ∧
    demoState.store.lookup 0 = some (Instance.mk clsB [("a", 1), ("b", 2)]) ∧
    execStmt demoState (.isTest "y" "B") =
      .ok { demoState with output := ["IS"] } :=
  ⟨rfl, rfl, rfl, by
    have h := is_test_uses_runtime_class.2 demoState "y" "B" ⟨0, clsA⟩ clsB
      (Instance.mk clsB [("a", 1), ("b", 2)]) rfl rfl rfl
    exact h.trans (by rfl)⟩

/-- C3: `let v = cast<Target> src` (src bound, Target declared) succeeds
exactly when the runtime class of the referenced instance is a subclass of
Target; on success the new binding aliases the SAME instance address with
view class Target (store and allocation counter untouched — no copy); when
the runtime class is not a subclass of Target the statement fails with
InvalidCast, the error being raised before any environment update. -/
theorem cast_requires_runtime_subclass :
    ∀ (s : InterpState) (v target src : String) (b : VarBinding)
      (cls : ClassDef) (i : Instance), s.env.lookup src = some b →
      s.classes.lookup target = some cls → s.store.lookup b.inst = some i →
      (i.cls.is_subclass_of cls = true →
         execStmt s (.letCast v target src) =
           .ok { s with env := dictInsert s.env v ⟨b.inst, cls⟩ })
      ∧ (i.cls.is_subclass_of cls = false →
         execStmt s (.letCast v target src) =
           .error (.invalidCast i.cls.name cls.name)) :=
  fun s v target src b cls i hb hc hi =>
    ⟨fun hsub => exec_letCast_ok s v target src b cls i hb hc hi hsub,
     fun hsub => exec_letCast_fail s v target src b cls i hb hc hi hsub⟩

/-- Witness for C3: upcasting the B instance to A succeeds and aliases
address 0; downcasting an A instance to B fails with InvalidCast. -/
theorem cast_requires_runtime_subclass_witness :
    (demoState.env.lookup "x" = some ⟨0, clsB⟩ ∧
     demoState.classes.lookup "A" = some clsA ∧
     demoState.store.lookup 0 = some (Instance.mk clsB [("a", 1), ("b", 2)]) ∧
     execStmt demoState (.letCast "z" "A" "x") =
       .ok { demoState with env := dictInsert demoState.env "z" ⟨0, clsA⟩ }) ∧
    (demoStateA.env.lookup "w" = some ⟨0, clsA⟩ ∧
     demoStateA.classes.lookup "B" = some clsB ∧
     demoStateA.store.lookup 0 = some (Instance.mk clsA [("a", 7)]) ∧
     execStmt demoStateA (.letCast "z" "B" "w") =
       .error (.invalidCast "A" "B")) :=
  ⟨⟨rfl, rfl, rfl, by
      have h := (cast_requires_runtime_subclass demoState "z" "A" "x" ⟨0, clsB⟩
        clsA (Instance.mk clsB [("a", 1), ("b", 2)]) rfl rfl rfl).1 (by rfl)
      exact h⟩,
   ⟨rfl, rfl, rfl, by
      have h := (cast_requires_runtime_subclass demoStateA "z" "B" "w" ⟨0, clsA⟩
        clsB (Instance.mk clsA [("a", 7)]) rfl rfl rfl).2 (by rfl)
      exact h.trans (by rfl)⟩⟩

/-- C4: a bare reference `let v = src` fails with UnknownVariable when src is
unbound, and otherwise produces a binding with the same instance address and
the same view class as the source; `cast` likewise aliases the same address;
and for any two bindings over the same address, assigning a field through one
is observed when the field is read through the other. -/
theorem aliasing_shares_instance :
    (∀ (s : InterpState) (v src : String), s.env.lookup src = none →
       execStmt s (.letRef v src) = .error (.unknownVariable src))
  ∧ (∀ (s : InterpState) (v src : String) (b : VarBinding),
       s.env.lookup src = some b →
       execStmt s (.letRef v src) =
         .ok { s with env := dictInsert s.env v ⟨b.inst, b.view_cls⟩ })
  ∧ (∀ (s : InterpState) (b : VarBinding) (target : String) (nb : VarBinding),
       cast_binding s.classes s.store b target = .ok nb → nb.inst = b.inst)
  ∧ (∀ (s : InterpState) (v1 v2 f rhs : String) (b1 b2 : VarBinding)
       (s' : InterpState), s.env.lookup v1 = some b1 →
       s.env.lookup v2 = some b2 → b2.inst = b1.inst →
       execStmt s (.fieldAssign v1 f rhs) = .ok s' →
       s'.env.lookup v2 = some b2 ∧
       ∃ i2, s'.store.lookup b2.inst = some i2 ∧
         i2.fields.lookup f = some (str_to_int rhs)) := by
  refine ⟨exec_letRef_unbound, exec_letRef_eq, ?_, ?_⟩
  · intro s b target nb hcb
    obtain ⟨cls, i, h1, h2, h3, h4⟩ := cast_binding_ok_inv hcb
    subst h4
    rfl
  · intro s v1 v2 f rhs b1 b2 s2 hb1 hb2 hshare h
    obtain ⟨b1x, i, w, hrhs, hb1x, hi, hf, hs2⟩ := exec_fieldAssign_ok_inv h
    rw [hb1] at hb1x
    cases hb1x
    subst hs2
    refine ⟨hb2, ⟨i.cls, dictInsert i.fields f (str_to_int rhs)⟩, ?_, ?_⟩
    · unfold storeSetField
      rw [hshare]
      exact lookup_dictInsert_self _ _ _
    · exact lookup_dictInsert_self _ _ _

/-- Witness for C4: after `let z = y` in the demo state, `z` aliases address
0 with view class A; assigning `x.a = 5` is then visible at the shared
address through the binding of `y`. -/
theorem aliasing_shares_instance_witness :
    (demoState.env.lookup "y" = some ⟨0, clsA⟩ ∧
     execStmt demoState (.letRef "z" "y") =
       .ok { demoState with env := dictInsert demoState.env "z" ⟨0, clsA⟩ }) ∧
    (demoState.env.lookup "x" = some ⟨0, clsB⟩ ∧
     demoState.env.lookup "y" = some ⟨0, clsA⟩ ∧
     execStmt demoState (.fieldAssign "x" "a" "5") =
       .ok { demoState with
               store := storeSetField demoState.store 0
                 (Instance.mk clsB [("a", 1), ("b", 2)]) "a" 5 } ∧
     ∃ i2, (storeSetField demoState.store 0
              (Instance.mk clsB [("a", 1), ("b", 2)]) "a" 5).lookup 0 =
                some i2 ∧ i2.fields.lookup "a" = some 5) := by
  constructor
  · exact ⟨rfl, (aliasing_shares_instance.2.1 demoState "z" "y" ⟨0, clsA⟩ rfl)⟩
  · refine ⟨rfl, rfl, ?_⟩
    have h := aliasing_shares_instance.2.2.2 demoState "x" "y" "a" "5"
      ⟨0, clsB⟩ ⟨0, clsA⟩
      { demoState with
          store := storeSetField demoState.store 0
            (Instance.mk clsB [("a", 1), ("b", 2)]) "a" 5 }
      rfl rfl rfl (by rfl)
    exact ⟨by rfl, h.2⟩



/-- C5: `let v = clone src` fails with UnknownVariable when src is unbound;
otherwise it allocates a fresh instance (at the allocation counter, distinct
from the source address) with the same runtime class and an equal copy of the
field map, the new binding inherits the view class of the SOURCE BINDING, and
afterwards assigning a field through the clone leaves the source instance
unchanged and assigning through the source leaves the clone unchanged. -/
theorem clone_makes_independent_copy :
    (∀ (s : InterpState) (v src : String), s.env.lookup src = none →
       execStmt s (.letClone v src) = .error (.unknownVariable src))
  ∧ (∀ (s : InterpState) (v src : String) (b : VarBinding) (i : Instance),
       s.env.lookup src = some b → s.store.lookup b.inst = some i →
       b.inst ≠ s.nextAddr → v ≠ src →
       ∃ s2, execStmt s (.letClone v src) = .ok s2 ∧
         s2.env.lookup v = some ⟨s.nextAddr, b.view_cls⟩ ∧
         s2.env.lookup src = some b ∧
         s2.store.lookup s.nextAddr = some (Instance.mk i.cls i.fields) ∧
         s2.store.lookup b.inst = some i ∧
         (∀ (f rhs : String) (s3 : InterpState),
            execStmt s2 (.fieldAssign v f rhs) = .ok s3 →
            s3.store.lookup b.inst = some i) ∧
         (∀ (f rhs : String) (s3 : InterpState),
            execStmt s2 (.fieldAssign src f rhs) = .ok s3 →
            s3.store.lookup s.nextAddr = some (Instance.mk i.cls i.fields))) := by
  refine ⟨exec_letClone_unbound, ?_⟩
  intro s v src b i hb hi hfresh hvsrc
  refine ⟨_, exec_letClone_eq s v src b i hb hi, ?_, ?_, ?_, ?_, ?_, ?_⟩
  · exact lookup_dictInsert_self _ _ _
  · rw [lookup_dictInsert_ne _ _ _ _ (fun h => hvsrc h.symm)]
    exact hb
  · exact lookup_dictInsert_self _ _ _
  · rw [lookup_dictInsert_ne _ _ _ _ hfresh]
    exact hi
  · intro f rhs s3 h3
    obtain ⟨b2, i2, w, hrhs, hb2, hi2, hf2, hs3⟩ := exec_fieldAssign_ok_inv h3
    rw [lookup_dictInsert_self _ _ _] at hb2
    cases hb2
    subst hs3
    unfold storeSetField
    rw [lookup_dictInsert_ne _ _ _ _ hfresh]
    rw [lookup_dictInsert_ne _ _ _ _ hfresh]
    exact hi
  · intro f rhs s3 h3
    obtain ⟨b2, i2, w, hrhs, hb2, hi2, hf2, hs3⟩ := exec_fieldAssign_ok_inv h3
    rw [lookup_dictInsert_ne _ _ _ _ (fun h => hvsrc h.symm)] at hb2
    rw [hb] at hb2
    cases hb2
    subst hs3
    unfold storeSetField
    rw [lookup_dictInsert_ne _ _ _ _ (fun h => hfresh h.symm)]
    exact lookup_dictInsert_self _ _ _

/-- Witness for C5: cloning `y` (the B instance viewed as A) in the demo
state allocates address 1, copies `{a=1, b=2}`, inherits view class A, and a
later assignment through the clone leaves the original at address 0 intact. -/
theorem clone_makes_independent_copy_witness :
    demoState.env.lookup "y" = some ⟨0, clsA⟩ ∧
    demoState.store.lookup 0 = some (Instance.mk clsB [("a", 1), ("b", 2)]) ∧
    (0 ≠ demoState.nextAddr) ∧ ("c" ≠ "y") ∧
    ∃ s2, execStmt demoState (.letClone "c" "y") = .ok s2 ∧
      s2.env.lookup "c" = some ⟨demoState.nextAddr, clsA⟩ ∧
      s2.env.lookup "y" = some ⟨0, clsA⟩ ∧
      s2.store.lookup demoState.nextAddr =
        some (Instance.mk clsB [("a", 1), ("b", 2)]) ∧
      s2.store.lookup 0 = some (Instance.mk clsB [("a", 1), ("b", 2)]) ∧
      (∀ (f rhs : String) (s3 : InterpState),
         execStmt s2 (.fieldAssign "c" f rhs) = .ok s3 →
         s3.store.lookup 0 = some (Instance.mk clsB [("a", 1), ("b", 2)])) ∧
      (∀ (f rhs : String) (s3 : InterpState),
         execStmt s2 (.fieldAssign "y" f rhs) = .ok s3 →
         s3.store.lookup demoState.nextAddr =
           some (Instance.mk clsB [("a", 1), ("b", 2)])) :=
  ⟨rfl, rfl, by decide, by decide,
   clone_makes_independent_copy.2 demoState "c" "y" ⟨0, clsA⟩
     (Instance.mk clsB [("a", 1), ("b", 2)]) rfl rfl (by decide) (by decide)⟩

/-- C6: `all_fields` of a class is the concatenation of the ancestor fields
in root-to-leaf order followed by the fields of the class itself; its length
is exactly the number of arguments `new` requires (instantiation succeeds
precisely at that arity); and a successful `new` assigns the argument values
to the fields positionally in that order. -/
theorem all_fields_order_and_arity :
    (∀ c : ClassDef,
       c.all_fields = c.chain.tail.reverse.flatMap ClassDef.fields ++ c.fields)
  ∧ (∀ (classes : List (String × ClassDef)) (nm : String) (cls : ClassDef)
       (args : List Int), classes.lookup nm = some cls →
       ((∃ inst, instantiate classes nm args = .ok inst) ↔
          args.length = cls.all_fields.length))
  ∧ (∀ (classes : List (String × ClassDef)) (nm : String) (cls : ClassDef)
       (args : List Int), classes.lookup nm = some cls →
       args.length = cls.all_fields.length →
       instantiate classes nm args = .ok ⟨cls, cls.all_fields.zip args⟩)
  ∧ (∀ (s : InterpState) (v nm : String) (raw : List String) (args : List Int)
       (inst : Instance), parseArgs raw = .ok args →
       instantiate s.classes nm args = .ok inst →
       execStmt s (.letNew v nm raw) =
         .ok { s with store := dictInsert s.store s.nextAddr inst,
                      nextAddr := s.nextAddr + 1,
                      env := dictInsert s.env v ⟨s.nextAddr, inst.cls⟩ }) := by
  refine ⟨?_, ?_, ?_, exec_letNew_ok⟩
  · intro c
    have hch : c.chain = c :: c.chain.tail := by
      cases c with
      | mk n f ms b => cases b <;> rfl
    have h := all_fields_eq_chain_flatMap c
    rw [hch] at h
    simpa [List.flatMap_append] using h
  · intro classes nm cls args hc
    constructor
    · rintro ⟨inst, hinst⟩
      obtain ⟨cls2, hc2, hlen, _⟩ := instantiate_ok_inv hinst
      rw [hc] at hc2
      cases hc2
      exact hlen.symm
    · intro hlen
      exact ⟨_, instantiate_ok classes nm cls args hc hlen.symm⟩
  · intro classes nm cls args hc hlen
    exact instantiate_ok classes nm cls args hc hlen.symm

/-- Witness for C6: class B inherits field `a` from A and appends its own
field `b`; `new B(1,2)` therefore takes two arguments assigned in order. -/
theorem all_fields_order_and_arity_witness :
    demoClasses.lookup "B" = some clsB ∧
    ([(3 : Int), 4].length = clsB.all_fields.length) ∧
    instantiate demoClasses "B" [3, 4] =
      .ok ⟨clsB, clsB.all_fields.zip [3, 4]⟩ ∧
    clsB.all_fields.zip [(3 : Int), 4] = [("a", 3), ("b", 4)] :=
  ⟨rfl, by decide,
   all_fields_order_and_arity.2.2.1 demoClasses "B" clsB [3, 4] rfl (by decide),
   by decide⟩

/-- C7: a `new` whose (well-formed, integer-literal) argument list has the
wrong length fails with ArityMismatch; the statement never produces a
successor state, so no instance is stored and no binding is added. -/
theorem arity_mismatch_has_no_effect :
    ∀ (s : InterpState) (v nm : String) (raw : List String) (args : List Int)
      (cls : ClassDef), parseArgs raw = .ok args →
      s.classes.lookup nm = some cls →
      args.length ≠ cls.all_fields.length →
      execStmt s (.letNew v nm raw) =
        .error (.arityMismatch nm cls.all_fields.length args.length)
      ∧ ∀ s2, execStmt s (.letNew v nm raw) ≠ .ok s2 := by
  intro s v nm raw args cls hpa hc hlen
  have herr := exec_letNew_instErr s v nm raw args _ hpa
    (instantiate_arity_err s.classes nm cls args hc (fun h => hlen h.symm))
  refine ⟨herr, ?_⟩
  intro s2 hok
  rw [herr] at hok
  cases hok

/-- Witness for C7: `new A(1, 2)` against class A, which declares a single
field, fails with ArityMismatch and yields no successor state. -/
theorem arity_mismatch_has_no_effect_witness :
    parseArgs ["1", "2"] = .ok [1, 2] ∧
    (initState demoClasses).classes.lookup "A" = some clsA ∧
    ([(1 : Int), 2].length ≠ clsA.all_fields.length) ∧
    execStmt (initState demoClasses) (.letNew "v" "A" ["1", "2"]) =
      .error (.arityMismatch "A" clsA.all_fields.length 2) ∧
    ∀ s2, execStmt (initState demoClasses) (.letNew "v" "A" ["1", "2"]) ≠
      .ok s2 := by
  have h := arity_mismatch_has_no_effect (initState demoClasses) "v" "A"
    ["1", "2"] [1, 2] clsA (by rfl) rfl (by decide)
  exact ⟨by rfl, rfl, by decide, h.1.trans (by rfl), h.2⟩



/-- C8: after any successful run from the initial state, every binding in the
environment refers to a stored instance whose runtime class is a subclass of
the binding view class; moreover no successful statement changes the binding
of any variable other than its own `let` target, so an established view class
is never mutated in place. -/
theorem binding_view_invariant :
    (∀ (classes : List (String × ClassDef)) (prog : List Stmt)
       (s2 : InterpState), run (initState classes) prog = .ok s2 →
       ∀ x b, s2.env.lookup x = some b →
         ∃ i, s2.store.lookup b.inst = some i ∧
           i.cls.is_subclass_of b.view_cls = true)
  ∧ (∀ (s : InterpState) (st : Stmt) (s2 : InterpState) (x : String),
       execStmt s st = .ok s2 → letTarget st ≠ some x →
       s2.env.lookup x = s.env.lookup x) := by
  constructor
  · intro classes prog s2 hrun x b hb
    exact (run_preserves_WF (WF_initState classes) hrun).2 x b hb
  · intro s st s2 x h hx
    exact execStmt_preserves_other_bindings h hx

/-- Witness for C8: running the demo program leaves `y` bound to the B
instance at address 0 under view class A, and B is indeed a subclass of A. -/
theorem binding_view_invariant_witness :
    run (initState demoClasses) demoProg = .ok demoState ∧
    demoState.env.lookup "y" = some ⟨0, clsA⟩ ∧
    ∃ i, demoState.store.lookup 0 = some i ∧
      i.cls.is_subclass_of clsA = true :=
  ⟨rfl, rfl,
   binding_view_invariant.1 demoClasses demoProg demoState rfl "y" ⟨0, clsA⟩ rfl⟩

/-- C9 counterexample: with `q` unbound and the non-integer right-hand side
`abc`, the field assignment `q.f = abc` fails with the integer-literal error
rather than UnknownVariable — the literal check runs before the variable
lookup, refuting the claim that an unbound name fails with UnknownVariable
for any right-hand side. -/
theorem field_assign_literal_checked_first :
    (initState demoClasses).env.lookup "q" = none ∧
    execStmt (initState demoClasses) (.fieldAssign "q" "f" "abc") =
      .error .invalidFieldAssignRhs ∧
    ∀ nm : String,
      (ExecError.invalidFieldAssignRhs ≠ ExecError.unknownVariable nm) :=
  ⟨rfl, rfl, fun _ h => ExecError.noConfusion h⟩

/-- C9 (amended): the integer-literal check on the right-hand side runs
first, so a non-integer right-hand side fails with the literal error even for
an unbound name; with an integer right-hand side an unbound name fails with
UnknownVariable; for a bound name, field membership is checked against the
runtime instance field map independent of the binding view class, failing
with UnknownField when absent; otherwise the literal value overwrites the
field. -/
theorem field_assign_order :
    (∀ (s : InterpState) (v f rhs : String), is_int rhs = false →
       execStmt s (.fieldAssign v f rhs) = .error .invalidFieldAssignRhs)
  ∧ (∀ (s : InterpState) (v f rhs : String), is_int rhs = true →
       s.env.lookup v = none →
       execStmt s (.fieldAssign v f rhs) = .error (.unknownVariable v))
  ∧ (∀ (s : InterpState) (v f rhs : String) (b : VarBinding) (i : Instance),
       is_int rhs = true → s.env.lookup v = some b →
       s.store.lookup b.inst = some i → i.fields.lookup f = none →
       execStmt s (.fieldAssign v f rhs) =
         .error (.unknownField f i.cls.name))
  ∧ (∀ (s : InterpState) (v f rhs : String) (b : VarBinding) (i : Instance)
       (w : Int), is_int rhs = true → s.env.lookup v = some b →
       s.store.lookup b.inst = some i → i.fields.lookup f = some w →
       execStmt s (.fieldAssign v f rhs) =
         .ok { s with store := storeSetField s.store b.inst i f (str_to_int rhs) }
       ∧ (dictInsert i.fields f (str_to_int rhs)).lookup f =
           some (str_to_int rhs)) := by
  refine ⟨exec_fieldAssign_badRhs, exec_fieldAssign_unbound,
    exec_fieldAssign_noField, ?_⟩
  intro s v f rhs b i w hrhs hb hi hf
  exact ⟨exec_fieldAssign_ok s v f rhs b i w hrhs hb hi hf,
    lookup_dictInsert_self _ _ _⟩

/-- Witness for C9 (amended): `x.a = 5` in the demo state overwrites field
`a` of the shared instance with 5. -/
theorem field_assign_order_witness :
    is_int "5" = true ∧
    demoState.env.lookup "x" = some ⟨0, clsB⟩ ∧
    demoState.store.lookup 0 = some (Instance.mk clsB [("a", 1), ("b", 2)]) ∧
    (Instance.mk clsB [("a", 1), ("b", 2)]).fields.lookup "a" = some 1 ∧
    execStmt demoState (.fieldAssign "x" "a" "5") =
      .ok { demoState with
              store := storeSetField demoState.store 0
                (Instance.mk clsB [("a", 1), ("b", 2)]) "a" (str_to_int "5") } ∧
    (dictInsert (Instance.mk clsB [("a", 1), ("b", 2)]).fields "a"
        (str_to_int "5")).lookup "a" = some (str_to_int "5") := by
  have h := field_assign_order.2.2.2 demoState "x" "a" "5" ⟨0, clsB⟩
    (Instance.mk clsB [("a", 1), ("b", 2)]) 1 rfl rfl rfl rfl
  exact ⟨rfl, rfl, rfl, rfl, h.1, h.2⟩



/-! ### Integer-literal lemmas (for C10) -/

theorem is_int_neg_cons (ds : List Char) :
    is_int (String.mk ('-' :: ds)) = (!ds.isEmpty && ds.all Char.isDigit) := rfl

theorem is_int_cons_not_minus (c : Char) (ds : List Char) (h : c ≠ '-') :
    is_int (String.mk (c :: ds)) =
      (!(c :: ds).isEmpty && (c :: ds).all Char.isDigit) := by
  unfold is_int
  dsimp only
  split
  next rest heq => exact absurd (List.head_eq_of_cons_eq heq) h
  next => rfl

theorem digitsToNat_append_digit (cs : List Char) (c : Char) :
    digitsToNat (cs ++ [c]) = 10 * digitsToNat cs + (c.toNat - '0'.toNat) := by
  unfold digitsToNat
  rw [List.foldl_append]
  simp [Nat.mul_comm]

/-- `digitsToNat` computes the base-ten value of the digit string (related to
the independent little-endian reading of Mathlib `Nat.ofDigits`). -/
theorem digitsToNat_eq_ofDigits (cs : List Char) :
    digitsToNat cs =
      Nat.ofDigits 10 ((cs.map fun c => c.toNat - '0'.toNat).reverse) := by
  induction cs using List.reverseRecOn with
  | nil => rfl
  | append_singleton xs c ih =>
    rw [digitsToNat_append_digit, ih, List.map_append, List.reverse_append]
    simp [Nat.ofDigits_cons]
    ring

theorem str_to_int_neg_cons (ds : List Char) :
    str_to_int (String.mk ('-' :: ds)) = - Int.ofNat (digitsToNat ds) := rfl

theorem str_to_int_cons_not_minus (c : Char) (ds : List Char) (h : c ≠ '-') :
    str_to_int (String.mk (c :: ds)) = Int.ofNat (digitsToNat (c :: ds)) := by
  unfold str_to_int
  dsimp only
  split
  next rest heq => exact absurd (List.head_eq_of_cons_eq heq) h
  next => rfl

theorem digit_ne_minus (c : Char) (h : c.isDigit = true) : c ≠ '-' := by
  intro hc
  rw [hc] at h
  exact absurd h (by decide)

theorem exec_fieldAssign_ne_literalErr (s : InterpState) (v f rhs : String)
    (hrhs : is_int rhs = true) :
    execStmt s (.fieldAssign v f rhs) ≠ .error .invalidFieldAssignRhs := by
  intro h
  cases hb : s.env.lookup v with
  | none => rw [exec_fieldAssign_unbound s v f rhs hrhs hb] at h; cases h
  | some b =>
    cases hi : s.store.lookup b.inst with
    | none => simp [execStmt, getBinding, getInst, hrhs, hb, hi] at h
    | some i =>
      cases hf : i.fields.lookup f with
      | none =>
        rw [exec_fieldAssign_noField s v f rhs b i hrhs hb hi hf] at h
        cases h
      | some w =>
        rw [exec_fieldAssign_ok s v f rhs b i w hrhs hb hi hf] at h
        cases h

theorem evalTokens_int_cons (fields : List (String × Int)) (m t : String)
    (ts : List String) (h : is_int t = true) :
    evalTokens fields m (t :: ts) =
      match evalTokens fields m ts with
      | .error e => .error e
      | .ok rest => .ok (str_to_int t :: rest) := by
  simp [evalTokens, h]

/-- C10: every token made of an optional leading minus sign followed by one
or more digits is accepted by `is_int` and therefore treated as an integer
literal at each site that requires one — constructor arguments of `new`, the
right-hand side of a field assignment, and method-body tokens — and it
evaluates to the corresponding signed decimal integer rather than being read
as a field name or rejected. -/
theorem negative_integer_literals :
    (∀ (neg : Bool) (ds : List Char), ds ≠ [] →
       (∀ c ∈ ds, c.isDigit = true) →
       is_int (String.mk ((if neg then ['-'] else []) ++ ds)) = true)
  ∧ (∀ (neg : Bool) (ds : List Char), ds ≠ [] →
       (∀ c ∈ ds, c.isDigit = true) →
       str_to_int (String.mk ((if neg then ['-'] else []) ++ ds)) =
         (if neg then -1 else 1) *
           (Nat.ofDigits 10 ((ds.map fun c => c.toNat - '0'.toNat).reverse) : Int))
  ∧ (∀ toks : List String, (∀ t ∈ toks, is_int t = true) →
       parseArgs toks = .ok (toks.map str_to_int))
  ∧ (∀ (s : InterpState) (v f rhs : String), is_int rhs = true →
       execStmt s (.fieldAssign v f rhs) ≠ .error .invalidFieldAssignRhs)
  ∧ (∀ (fields : List (String × Int)) (m t : String) (ts : List String),
       is_int t = true →
       evalTokens fields m (t :: ts) =
         match evalTokens fields m ts with
         | .error e => .error e
         | .ok rest => .ok (str_to_int t :: rest))
  ∧ (is_int "-3" = true ∧ str_to_int "-3" = -3) := by
  refine ⟨?_, ?_, parseArgs_all_int, exec_fieldAssign_ne_literalErr,
    evalTokens_int_cons, by decide, by decide⟩
  · intro neg ds hne hd
    cases neg with
    | true =>
      rw [if_pos rfl, List.singleton_append, is_int_neg_cons,
        List.all_eq_true.mpr hd]
      cases ds with
      | nil => exact absurd rfl hne
      | cons c rest => rfl
    | false =>
      rw [if_neg (by decide), List.nil_append]
      cases ds with
      | nil => exact absurd rfl hne
      | cons c rest =>
        rw [is_int_cons_not_minus c rest
          (digit_ne_minus c (hd c (List.mem_cons_self c rest))),
          List.all_eq_true.mpr hd]
        rfl
  · intro neg ds hne hd
    cases neg with
    | true =>
      rw [if_pos rfl, if_pos rfl, List.singleton_append, str_to_int_neg_cons,
        digitsToNat_eq_ofDigits]
      push_cast
      rw [neg_one_mul]
      norm_cast
    | false =>
      rw [if_neg (by decide), if_neg (by decide), List.nil_append]
      cases ds with
      | nil => exact absurd rfl hne
      | cons c rest =>
        rw [str_to_int_cons_not_minus c rest
          (digit_ne_minus c (hd c (List.mem_cons_self c rest)))]
        rw [digitsToNat_eq_ofDigits]
        push_cast
        rw [one_mul]
        norm_cast

/-- Witness for C10: the token `-3` is accepted as an integer literal and
evaluates to the integer `-3`. -/
theorem negative_integer_literals_witness :
    (['3'] ≠ ([] : List Char)) ∧ (∀ c ∈ ['3'], c.isDigit = true) ∧
    is_int (String.mk ((if true then ['-'] else []) ++ ['3'])) = true ∧
    str_to_int (String.mk ((if true then ['-'] else []) ++ ['3'])) =
      (if true then -1 else 1) *
        (Nat.ofDigits 10 ((['3'].map fun c => c.toNat - '0'.toNat).reverse) : Int) :=
  ⟨by decide, by decide,
   negative_integer_literals.1 true ['3'] (by decide) (by decide),
   negative_integer_literals.2.1 true ['3'] (by decide) (by decide)⟩


end RAFOO
